import Mathlib

/-!
Shallow embedding of `@api3/promise-utils` (src/src/index.ts, the current
variant, lines 1-211) and proofs of the specification claims about it.

Modelling conventions for the event-loop code:
* JavaScript values that can be thrown/rejected are modelled by `JsValue`:
  an `Error` instance (`error`), a `GoWrappedError` instance
  (`wrappedError`, which is also an `Error` instance and carries its
  `reason` field), or any non-`Error` value, carried together with its
  string conversion (`nonError`).
* Time is measured in whole milliseconds from the start of the `go` call.
  A promise produced by the wrapped operation either fulfills after `d` ms,
  rejects after `d` ms, or never settles.  Duration `0` means the promise
  settles without any timer (synchronously or via microtasks only).
* `setTimeout(cb, ms)` never runs `cb` in the same event-loop task that
  registered it: the callback runs at time `max ms 1` relative to
  registration (Node clamps a 0 ms timer to 1 ms, and even a browser's
  0 ms timer runs only in a later task, after all pending microtasks).
  This is `effTimer`.  Consequently an already-settled promise always wins
  a `Promise.race` against a timer, and two timers with the same deadline
  fire in registration order; in `attempt` the per-attempt timeout timer is
  registered before the operation is invoked (line 125 before line 126),
  and in `go` the total-timeout timer is registered before `makeAttempts`
  starts (line 151 before line 206), so those timers win exact ties.
-/

namespace PromiseUtils

/-- A JavaScript value as far as `instanceof Error`, string conversion and
the `GoWrappedError.reason` field can observe it. -/
inductive JsValue : Type where
  | error (message : String)
  | wrappedError (message : String) (reason : JsValue)
  | nonError (str : String)
deriving DecidableEq

/-- The `v instanceof Error` test (line 58); `GoWrappedError extends Error`. -/
def isErrorInstance : JsValue → Bool
  | .error _ => true
  | .wrappedError _ _ => true
  | .nonError _ => false

/-- String conversion `'' + v` (line 27).  The code only ever applies it to
non-`Error` values; on `Error` instances JavaScript would produce
`"Error: <message>"`. -/
def jsToString : JsValue → String
  | .error m => "Error: " ++ m
  | .wrappedError m _ => "Error: " ++ m
  | .nonError s => s

/-- The `message` property of an `Error` instance. -/
def errMessage : JsValue → String
  | .error m => m
  | .wrappedError m _ => m
  | .nonError s => s

/-- `GoResult<T, E>` (lines 2-4): a discriminated union over `success`. -/
inductive GoResult (T : Type) : Type where
  | success (data : T)
  | failure (error : JsValue)
deriving DecidableEq

/-- Whether a `GoResult` is the failure variant. -/
def GoResult.isFailureB {T : Type} : GoResult T → Bool
  | .success _ => false
  | .failure _ => true

/-- The `error` field of a failure result (dummy on the success variant). -/
def GoResult.errOf {T : Type} : GoResult T → JsValue
  | .success _ => .error ""
  | .failure e => e

/-- The error produced by `createGoError` (lines 57-60): an `Error`
instance is kept as is; any other value is wrapped in a `GoWrappedError`
whose message is its string conversion and whose `reason` is the value. -/
def normalizeErr (v : JsValue) : JsValue :=
  if isErrorInstance v then v else .wrappedError (jsToString v) v

/-- `createGoError` (lines 57-60). -/
def createGoError {T : Type} (v : JsValue) : GoResult T :=
  .failure (normalizeErr v)

/-- Behaviour of one call of a synchronous operation passed to `goSync`. -/
inductive SyncBehavior : Type where
  | returns (v : JsValue)
  | throws (v : JsValue)
deriving DecidableEq

/-- `goSync` (lines 62-68): run the operation, catch anything it throws
and normalize it into a failure result. -/
def goSync : SyncBehavior → GoResult JsValue
  | .returns v => .success v
  | .throws v => createGoError v

/-- Behaviour of one invocation of the asynchronous operation passed to
`go`: its promise fulfills after `d` ms, rejects after `d` ms (duration 0
also covers a synchronous throw), or never settles. -/
inductive OpBehavior : Type where
  | resolves (d : ℕ) (v : JsValue)
  | rejects (d : ℕ) (v : JsValue)
  | hangs
deriving DecidableEq

/-- Time until the behaviour settles, if it ever does. -/
def OpBehavior.settleTime : OpBehavior → Option ℕ
  | .resolves d _ => some d
  | .rejects d _ => some d
  | .hangs => none

/-- When a `setTimeout(cb, ms)` callback actually runs, relative to its
registration: never in the registering task, hence at `max ms 1`. -/
def effTimer (ms : ℕ) : ℕ := max ms 1

/-- One run of `attempt` (lines 115-136): the operation races against
`cancellableTimeout(attemptTimeoutMs)` when a timeout is given.  Returns
the attempt's `GoResult` together with the time (relative to the attempt's
start) at which it settles, or `none` if it never settles.  The timeout
timer rejects with the plain string `'Operation timed out'` (line 101),
which `createGoError` then wraps.  The operation wins the race exactly
when it settles strictly before `effTimer ms` (the timeout timer is
registered first, so it wins exact ties). -/
def attemptRun (b : OpBehavior) (attemptTimeoutMs : Option ℕ) :
    Option (GoResult JsValue × ℕ) :=
  match attemptTimeoutMs with
  | none =>
    match b with
    | .resolves d v => some (.success v, d)
    | .rejects d v => some (createGoError v, d)
    | .hangs => none
  | some ms =>
    match b with
    | .resolves d v =>
      if d < effTimer ms then some (.success v, d)
      else some (createGoError (JsValue.nonError "Operation timed out"), effTimer ms)
    | .rejects d v =>
      if d < effTimer ms then some (createGoError v, d)
      else some (createGoError (JsValue.nonError "Operation timed out"), effTimer ms)
    | .hangs => some (createGoError (JsValue.nonError "Operation timed out"), effTimer ms)

/-- `StaticDelayOptions` / `RandomDelayOptions` (lines 6-15). -/
inductive DelaySpec : Type where
  | static (delayMs : ℕ)
  | random (minDelayMs maxDelayMs : ℕ)
deriving DecidableEq

/-- The `attemptTimeoutMs` option (line 19): a single number or an array. -/
inductive AttemptTimeoutSpec : Type where
  | single (ms : ℕ)
  | arr (l : List ℕ)
deriving DecidableEq

/-- `GoAsyncOptions` (lines 17-23).  The observer callback is modelled by
whether it is present (its invocations are recorded in the run trace). -/
structure GoAsyncOptions : Type where
  retries : Option ℕ
  attemptTimeoutMs : Option AttemptTimeoutSpec
  totalTimeoutMs : Option ℕ
  delay : Option DelaySpec
  onAttemptError : Bool
deriving DecidableEq

/-- Number of loop iterations, line 161: `retries ? retries + 1 : 1`
(note that a configured `retries` of `0` is falsy). -/
def numAttempts : Option ℕ → ℕ
  | some r => if r = 0 then 1 else r + 1
  | none => 1

/-- JavaScript `x || y` on `number | undefined` operands: `x` unless it is
absent or `0` (falsy). -/
def jsOrNum : Option ℕ → Option ℕ → Option ℕ
  | some n, y => if n = 0 then y else some n
  | none, y => y

/-- Timeout used for attempt `i`, lines 167-172:
`Array.isArray(a) ? (a[i] || a.at(-1)) : a`. -/
def currentAttemptTimeout (a : Option AttemptTimeoutSpec) (i : ℕ) : Option ℕ :=
  match a with
  | none => none
  | some (.single ms) => some ms
  | some (.arr l) => jsOrNum (l.get? i) l.getLast?

/-- Duration slept by the inter-attempt delay (lines 185-200).  For a
random delay, `rnd i` is the duration drawn by `getRandomInRange` for the
delay after attempt `i`; the sleep is a `setTimeout`, hence `effTimer`. -/
def delayDuration (ds : DelaySpec) (rnd : ℕ → ℕ) (i : ℕ) : ℕ :=
  match ds with
  | .static delayMs => effTimer delayMs
  | .random _ _ => effTimer (rnd i)

/-- Whether the `fullTimeoutExceeded` flag (line 146) is set when a
continuation runs at absolute time `t`: the total-timeout timer, when
armed to fire at `tfire`, has run exactly when `tfire ≤ t` (it is
registered before `makeAttempts` starts, so at equal instants it runs
first). -/
def flagSet (tf : Option ℕ) (t : ℕ) : Bool :=
  match tf with
  | some tfire => decide (tfire ≤ t)
  | none => false

/-- Record of one attempt observed by `makeAttempts`: its index, its
`GoResult` and the absolute time at which the `await attempt(...)` on
line 177 resumed. -/
structure AttemptEvent : Type where
  idx : ℕ
  result : GoResult JsValue
  time : ℕ
deriving DecidableEq

/-- Record of one `onAttemptError` invocation (line 181). -/
structure CallbackEvent : Type where
  idx : ℕ
  error : JsValue
  time : ℕ
deriving DecidableEq

/-- Record of one inter-attempt delay (lines 185-200): the attempt index
it follows, the duration slept and the absolute time at which it ended. -/
structure DelayEvent : Type where
  idx : ℕ
  duration : ℕ
  endTime : ℕ
deriving DecidableEq

/-- Outcome and observable trace of a (suffix of a) `makeAttempts` run.
`result` is the value the `makeAttempts` promise settles with (`none`
models both the never-settling case and the `null` fallback of line 203);
`time` is the absolute time it settles at (`none` if it never settles). -/
structure RunState : Type where
  result : Option (GoResult JsValue)
  time : Option ℕ
  invocations : ℕ
  attemptsDone : List AttemptEvent
  callbacks : List CallbackEvent
  delays : List DelayEvent
deriving DecidableEq

/-- The loop body of `makeAttempts` (lines 160-204), as a recursion on the
number of remaining iterations (`makeAttemptsRun` starts it with
`fuel = numAttempts retries`, matching `for (let i = 0; i < attempts; i++)`).
`i` is the current attempt index, `t` the current absolute time, `lastFail`
the `lastFailedAttemptResult` variable.  Per iteration, following the
source order: check `fullTimeoutExceeded` (line 176); run `attempt`
(line 177); re-check the flag (line 179); fire `onAttemptError` for a
failed non-final attempt (line 181); return on success (line 182); record
the failure and, unless final, sleep the configured delay (lines 184-200).
A delay still in flight when the total timeout fires is cancelled by
line 208, which only makes the loop's next flag check (which breaks either
way) come earlier; the trace fields are unaffected, so the model lets the
delay run its course. -/
def makeAttemptsLoop (beh : ℕ → OpBehavior) (opts : GoAsyncOptions) (rnd : ℕ → ℕ)
    (tf : Option ℕ) (total : ℕ) :
    ℕ → ℕ → ℕ → Option JsValue → RunState
  | 0, _, t, lastFail =>
    ⟨lastFail.map GoResult.failure, some t, 0, [], [], []⟩
  | fuel + 1, i, t, lastFail =>
    if flagSet tf t then
      ⟨lastFail.map GoResult.failure, some t, 0, [], [], []⟩
    else
      match attemptRun (beh i) (currentAttemptTimeout opts.attemptTimeoutMs i) with
      | none => ⟨none, none, 1, [], [], []⟩
      | some (r, d) =>
        if flagSet tf (t + d) then
          ⟨lastFail.map GoResult.failure, some (t + d), 1, [⟨i, r, t + d⟩], [], []⟩
        else
          match r with
          | .success v =>
            ⟨some (.success v), some (t + d), 1, [⟨i, .success v, t + d⟩], [], []⟩
          | .failure e =>
            if i + 1 = total then
              -- final attempt: no callback, no delay; the loop then exits
              let rest := makeAttemptsLoop beh opts rnd tf total fuel (i + 1) (t + d) (some e)
              ⟨rest.result, rest.time, rest.invocations + 1,
               ⟨i, .failure e, t + d⟩ :: rest.attemptsDone, rest.callbacks, rest.delays⟩
            else
              let cbs : List CallbackEvent :=
                if opts.onAttemptError then [⟨i, e, t + d⟩] else []
              match opts.delay with
              | some ds =>
                let dur := delayDuration ds rnd i
                let rest :=
                  makeAttemptsLoop beh opts rnd tf total fuel (i + 1) (t + d + dur) (some e)
                ⟨rest.result, rest.time, rest.invocations + 1,
                 ⟨i, .failure e, t + d⟩ :: rest.attemptsDone, cbs ++ rest.callbacks,
                 ⟨i, dur, t + d + dur⟩ :: rest.delays⟩
              | none =>
                let rest := makeAttemptsLoop beh opts rnd tf total fuel (i + 1) (t + d) (some e)
                ⟨rest.result, rest.time, rest.invocations + 1,
                 ⟨i, .failure e, t + d⟩ :: rest.attemptsDone, cbs ++ rest.callbacks,
                 rest.delays⟩

/-- A full run of `makeAttempts` (lines 160-204) for an operation whose
`i`-th invocation behaves as `beh i`, starting at time 0 with the
total-timeout timer (if configured) armed to fire at `effTimer totalTimeoutMs`. -/
def makeAttemptsRun (beh : ℕ → OpBehavior) (opts : GoAsyncOptions) (rnd : ℕ → ℕ) : RunState :=
  makeAttemptsLoop beh opts rnd (opts.totalTimeoutMs.map effTimer)
    (numAttempts opts.retries) (numAttempts opts.retries) 0 0 none

/-- The result `go` settles with on the total-timeout path (lines 152-155):
`fail(new Error('Full timeout exceeded'))`. -/
def fullTimeoutFailure : GoResult JsValue := .failure (.error "Full timeout exceeded")

/-- Outcome and observable trace of one `go` call: the result it settles
with and when (`none` when it never settles), how many times the operation
was invoked, and the `onAttemptError` / delay / attempt traces (these
include the tail of `makeAttempts` that keeps running in the background
after a total-timeout race has already settled `go` itself). -/
structure GoRun : Type where
  result : Option (GoResult JsValue)
  endTime : Option ℕ
  invocations : ℕ
  attemptsDone : List AttemptEvent
  callbacks : List CallbackEvent
  delays : List DelayEvent
deriving DecidableEq

/-- `go` (lines 138-211).  Without options it is a single bare `attempt`
(line 142).  Otherwise `makeAttempts()` races against `fullTimeoutPromise`
(line 206): with no `totalTimeoutMs` that promise never settles, so
`makeAttempts` decides the outcome; with `totalTimeoutMs`, `go` settles
with `makeAttempts`' result if that settles strictly before the timer
fires at `effTimer totalTimeoutMs` (the timer is registered first and wins
exact ties), and with `fullTimeoutFailure` at the timer's firing time
otherwise. -/
def goRun (beh : ℕ → OpBehavior) (options : Option GoAsyncOptions) (rnd : ℕ → ℕ) : GoRun :=
  match options with
  | none =>
    match attemptRun (beh 0) none with
    | none => ⟨none, none, 1, [], [], []⟩
    | some (r, d) => ⟨some r, some d, 1, [⟨0, r, d⟩], [], []⟩
  | some opts =>
    let st := makeAttemptsRun beh opts rnd
    match opts.totalTimeoutMs with
    | none => ⟨st.result, st.time, st.invocations, st.attemptsDone, st.callbacks, st.delays⟩
    | some tt =>
      match st.time with
      | some tm =>
        if tm < effTimer tt then
          ⟨st.result, st.time, st.invocations, st.attemptsDone, st.callbacks, st.delays⟩
        else
          ⟨some fullTimeoutFailure, some (effTimer tt), st.invocations,
           st.attemptsDone, st.callbacks, st.delays⟩
      | none =>
        ⟨some fullTimeoutFailure, some (effTimer tt), st.invocations,
         st.attemptsDone, st.callbacks, st.delays⟩

/-- `assertGoSuccess` (lines 33-37), modelled by the value it throws:
`none` when it returns normally. -/
def assertGoSuccess {T : Type} : GoResult T → Option JsValue
  | .success _ => none
  | .failure e => some e

/-- `assertGoError` (lines 41-45), modelled by the value it throws:
`none` when it returns normally. -/
def assertGoError {T : Type} : GoResult T → Option JsValue
  | .success _ => some (.error "Assertion failed. Expected error, but no error was thrown")
  | .failure _ => none

/-- Whether a result is a success or a failure carrying a conforming
`Error` instance (the Result invariant of the spec's data model). -/
def conformingB : GoResult JsValue → Bool
  | .success _ => true
  | .failure e => isErrorInstance e

lemma numAttempts_pos (r : Option ℕ) : 1 ≤ numAttempts r := by
  cases r with
  | none => simp [numAttempts]
  | some n => by_cases h : n = 0 <;> simp [numAttempts, h]

lemma flagSet_map_effTimer_zero (o : Option ℕ) : flagSet (o.map effTimer) 0 = false := by
  cases o with
  | none => rfl
  | some tt => simp [flagSet, effTimer]

lemma createGoError_conforming (v : JsValue) :
    conformingB (createGoError v : GoResult JsValue) = true := by
  cases v <;> rfl

lemma attemptRun_conforming (b : OpBehavior) (mso : Option ℕ) (r : GoResult JsValue) (d : ℕ)
    (h : attemptRun b mso = some (r, d)) : conformingB r = true := by
  cases mso with
  | none =>
    cases b with
    | resolves d2 v =>
      simp only [attemptRun, Option.some.injEq, Prod.mk.injEq] at h
      rw [← h.1]; rfl
    | rejects d2 v =>
      simp only [attemptRun, Option.some.injEq, Prod.mk.injEq] at h
      rw [← h.1]; exact createGoError_conforming v
    | hangs => simp [attemptRun] at h
  | some ms =>
    cases b with
    | resolves d2 v =>
      simp only [attemptRun] at h
      split at h <;> simp only [Option.some.injEq, Prod.mk.injEq] at h <;> rw [← h.1]
      · rfl
      · exact createGoError_conforming _
    | rejects d2 v =>
      simp only [attemptRun] at h
      split at h <;> simp only [Option.some.injEq, Prod.mk.injEq] at h <;> rw [← h.1] <;>
        exact createGoError_conforming _
    | hangs =>
      simp only [attemptRun, Option.some.injEq, Prod.mk.injEq] at h
      rw [← h.1]; exact createGoError_conforming _

lemma attemptRun_none_iff (b : OpBehavior) (mso : Option ℕ) :
    attemptRun b mso = none ↔ b = .hangs ∧ mso = none := by
  cases mso with
  | none => cases b <;> simp [attemptRun]
  | some ms => cases b <;> simp [attemptRun] <;> split <;> simp

lemma loop_delays_nil (beh : ℕ → OpBehavior) (opts : GoAsyncOptions) (rnd : ℕ → ℕ)
    (tf : Option ℕ) (total : ℕ) (hd : opts.delay = none) :
    ∀ fuel i t lastFail,
      (makeAttemptsLoop beh opts rnd tf total fuel i t lastFail).delays = [] := by
  intro fuel
  induction fuel with
  | zero => intro i t lastFail; rfl
  | succ n ih =>
    intro i t lastFail
    simp only [makeAttemptsLoop, hd]
    split
    · rfl
    · split
      · rfl
      · split
        · rfl
        · split
          · rfl
          · split <;> simp [ih]

/-- Specification-side characterization of when line 181 fires the
observer for a recorded attempt: the attempt is not the final one, it
failed, and the total-timeout flag was not yet set when its outcome was
observed. -/
def expectedCallback (total : ℕ) (tf : Option ℕ) (ev : AttemptEvent) : Bool :=
  decide (ev.idx + 1 ≠ total) && ev.result.isFailureB && !flagSet tf ev.time

lemma loop_callbacks_spec (beh : ℕ → OpBehavior) (opts : GoAsyncOptions) (rnd : ℕ → ℕ)
    (tf : Option ℕ) (total : ℕ) (hcb : opts.onAttemptError = true) :
    ∀ fuel i t lastFail,
      (makeAttemptsLoop beh opts rnd tf total fuel i t lastFail).callbacks =
        ((makeAttemptsLoop beh opts rnd tf total fuel i t lastFail).attemptsDone.filter
            (expectedCallback total tf)).map
          (fun ev => ⟨ev.idx, ev.result.errOf, ev.time⟩) := by
  intro fuel
  induction fuel with
  | zero => intro i t lastFail; rfl
  | succ n ih =>
    intro i t lastFail
    simp only [makeAttemptsLoop, hcb]
    split
    · rfl
    · split
      · rfl
      · split
        · next hflag => simp [expectedCallback, hflag]
        · next hflag =>
          split
          · simp [expectedCallback, GoResult.isFailureB]
          · split
            · next hfin => simp [expectedCallback, hfin, ih]
            · next hfin =>
              simp only [Bool.not_eq_true] at hflag
              split <;>
                simp [expectedCallback, hfin, hflag, GoResult.isFailureB, GoResult.errOf, ih]

lemma loop_idx_range (beh : ℕ → OpBehavior) (opts : GoAsyncOptions) (rnd : ℕ → ℕ)
    (tf : Option ℕ) (total : ℕ) :
    ∀ fuel i t lastFail,
      (makeAttemptsLoop beh opts rnd tf total fuel i t lastFail).attemptsDone.map
          AttemptEvent.idx =
        List.range' i
          (makeAttemptsLoop beh opts rnd tf total fuel i t lastFail).attemptsDone.length := by
  intro fuel
  induction fuel with
  | zero => intro i t lastFail; rfl
  | succ n ih =>
    intro i t lastFail
    simp only [makeAttemptsLoop]
    split
    · rfl
    · split
      · rfl
      · split
        · simp [List.range']
        · split
          · simp [List.range']
          · split
            · simp [List.range', ih]
            · split <;> simp [List.range', ih]

lemma loop_result_conforming (beh : ℕ → OpBehavior) (opts : GoAsyncOptions) (rnd : ℕ → ℕ)
    (tf : Option ℕ) (total : ℕ) :
    ∀ fuel i t lastFail,
      (∀ e, lastFail = some e → isErrorInstance e = true) →
      ∀ r, (makeAttemptsLoop beh opts rnd tf total fuel i t lastFail).result = some r →
        conformingB r = true := by
  intro fuel
  induction fuel with
  | zero =>
    intro i t lastFail hlf r hr
    simp only [makeAttemptsLoop] at hr
    cases lastFail with
    | none => simp at hr
    | some e =>
      simp only [Option.map_some', Option.some.injEq] at hr
      rw [← hr]
      simpa [conformingB] using hlf e rfl
  | succ n ih =>
    intro i t lastFail hlf r hr
    simp only [makeAttemptsLoop] at hr
    split at hr
    · cases lastFail with
      | none => simp at hr
      | some e =>
        simp only [Option.map_some', Option.some.injEq] at hr
        rw [← hr]
        simpa [conformingB] using hlf e rfl
    · split at hr
      · simp at hr
      · next heq =>
        split at hr
        · cases lastFail with
          | none => simp at hr
          | some e =>
            simp only [Option.map_some', Option.some.injEq] at hr
            rw [← hr]
            simpa [conformingB] using hlf e rfl
        · split at hr
          · simp only [Option.some.injEq] at hr
            rw [← hr]; rfl
          · next e =>
            have hconf : isErrorInstance e = true := by
              simpa [conformingB] using attemptRun_conforming _ _ _ _ heq
            split at hr
            · exact ih _ _ _ (by intro e2 he2; cases he2; exact hconf) r hr
            · split at hr <;>
                exact ih _ _ _ (by intro e2 he2; cases he2; exact hconf) r hr

lemma loop_result_isSome_of_no_hang (beh : ℕ → OpBehavior) (opts : GoAsyncOptions)
    (rnd : ℕ → ℕ) (total : ℕ) (hh : ∀ j, beh j ≠ .hangs) :
    ∀ fuel i t lastFail, 1 ≤ fuel ∨ lastFail.isSome = true →
      (makeAttemptsLoop beh opts rnd none total fuel i t lastFail).result.isSome = true := by
  intro fuel
  induction fuel with
  | zero =>
    intro i t lastFail hstart
    rcases hstart with h | h
    · omega
    · cases lastFail with
      | none => simp at h
      | some e => simp [makeAttemptsLoop]
  | succ n ih =>
    intro i t lastFail hstart
    simp only [makeAttemptsLoop]
    split
    · next hflag => simp [flagSet] at hflag
    · split
      · next heq =>
        exact absurd ((attemptRun_none_iff _ _).mp heq).1 (hh i)
      · split
        · next hflag => simp [flagSet] at hflag
        · split
          · simp
          · split
            · exact ih _ _ _ (Or.inr rfl)
            · split <;> exact ih _ _ _ (Or.inr rfl)

lemma loop_result_none_time (beh : ℕ → OpBehavior) (opts : GoAsyncOptions) (rnd : ℕ → ℕ)
    (tfr : ℕ) (total : ℕ) :
    ∀ fuel i t lastFail, 1 ≤ fuel ∨ lastFail.isSome = true →
      (makeAttemptsLoop beh opts rnd (some tfr) total fuel i t lastFail).result = none →
      ∀ tm, (makeAttemptsLoop beh opts rnd (some tfr) total fuel i t lastFail).time = some tm →
        tfr ≤ tm := by
  intro fuel
  induction fuel with
  | zero =>
    intro i t lastFail hstart hres tm htm
    rcases hstart with h | h
    · omega
    · cases lastFail with
      | none => simp at h
      | some e => simp [makeAttemptsLoop] at hres
  | succ n ih =>
    intro i t lastFail hstart
    simp only [makeAttemptsLoop]
    split
    · next hflag =>
      intro hres tm htm
      simp only [Option.some.injEq] at htm
      simp only [flagSet, decide_eq_true_eq] at hflag
      omega
    · split
      · intro hres tm htm
        simp at htm
      · split
        · next hflag2 =>
          intro hres tm htm
          simp only [Option.some.injEq] at htm
          simp only [flagSet, decide_eq_true_eq] at hflag2
          omega
        · split
          · intro hres; simp at hres
          · split
            · intro hres tm htm
              refine ih _ _ _ (Or.inr ?_) hres tm htm
              rfl
            · split <;>
                (intro hres tm htm
                 refine ih _ _ _ (Or.inr ?_) hres tm htm
                 rfl)

lemma loop_invocations_pos (beh : ℕ → OpBehavior) (opts : GoAsyncOptions) (rnd : ℕ → ℕ)
    (tf : Option ℕ) (total : ℕ) (fuel i t : ℕ) (lastFail : Option JsValue)
    (hflag : flagSet tf t = false) :
    1 ≤ (makeAttemptsLoop beh opts rnd tf total (fuel + 1) i t lastFail).invocations := by
  simp only [makeAttemptsLoop, hflag, Bool.false_eq_true, if_false]
  split
  · dsimp only; omega
  · split
    · dsimp only; omega
    · split
      · dsimp only; omega
      · split
        · dsimp only; omega
        · split <;> (dsimp only; omega)

lemma goRun_fields (beh : ℕ → OpBehavior) (opts : GoAsyncOptions) (rnd : ℕ → ℕ) :
    (goRun beh (some opts) rnd).attemptsDone = (makeAttemptsRun beh opts rnd).attemptsDone ∧
    (goRun beh (some opts) rnd).callbacks = (makeAttemptsRun beh opts rnd).callbacks ∧
    (goRun beh (some opts) rnd).delays = (makeAttemptsRun beh opts rnd).delays ∧
    (goRun beh (some opts) rnd).invocations = (makeAttemptsRun beh opts rnd).invocations ∧
    ((goRun beh (some opts) rnd).result = (makeAttemptsRun beh opts rnd).result ∨
      (goRun beh (some opts) rnd).result = some fullTimeoutFailure) := by
  simp only [goRun]
  cases htt : opts.totalTimeoutMs with
  | none => exact ⟨rfl, rfl, rfl, rfl, Or.inl rfl⟩
  | some tt =>
    cases htm : (makeAttemptsRun beh opts rnd).time with
    | none => exact ⟨rfl, rfl, rfl, rfl, Or.inr rfl⟩
    | some tm =>
      dsimp only
      by_cases hlt : tm < effTimer tt
      · rw [if_pos hlt]
        exact ⟨rfl, rfl, rfl, rfl, Or.inl rfl⟩
      · rw [if_neg hlt]
        exact ⟨rfl, rfl, rfl, rfl, Or.inr rfl⟩

lemma goRun_isSome_of_total (beh : ℕ → OpBehavior) (opts : GoAsyncOptions) (rnd : ℕ → ℕ)
    (tt : ℕ) (htt : opts.totalTimeoutMs = some tt) :
    ((goRun beh (some opts) rnd).result).isSome = true := by
  simp only [goRun, htt]
  cases htm : (makeAttemptsRun beh opts rnd).time with
  | none => rfl
  | some tm =>
    dsimp only
    by_cases hlt : tm < effTimer tt
    · rw [if_pos hlt]
      cases hres : (makeAttemptsRun beh opts rnd).result with
      | some r => rfl
      | none =>
        exfalso
        have hmap : opts.totalTimeoutMs.map effTimer = some (effTimer tt) := by
          rw [htt]; rfl
        unfold makeAttemptsRun at hres htm
        rw [hmap] at hres htm
        have := loop_result_none_time beh opts rnd (effTimer tt) (numAttempts opts.retries)
          (numAttempts opts.retries) 0 0 none (Or.inl (numAttempts_pos _)) hres tm htm
        omega
    · rw [if_neg hlt]; rfl

/-- C1: for every operation that fails (rejects) on all attempts, `go`
with `retries = 2` returns a failure carrying the last (third) attempt's
error, as normalized by `createGoError`, and the operation is invoked
exactly 3 times (`attempts = retries + 1`), whatever the delay
configuration, observer callback and random draws. -/
theorem go_retries_two_always_failing (dd : ℕ → ℕ) (vv : ℕ → JsValue)
    (dl : Option DelaySpec) (cb : Bool) (rnd : ℕ → ℕ) :
    (goRun (fun i => .rejects (dd i) (vv i))
        (some ⟨some 2, none, none, dl, cb⟩) rnd).result =
      some (createGoError (vv 2)) ∧
    (goRun (fun i => .rejects (dd i) (vv i))
        (some ⟨some 2, none, none, dl, cb⟩) rnd).invocations = 3 := by
  cases dl with
  | none => exact ⟨rfl, rfl⟩
  | some ds => cases ds <;> exact ⟨rfl, rfl⟩

/-- C2: whenever `totalTimeoutMs` is configured and the attempt sequence
has not settled strictly before the total-timeout timer fires (at
`effTimer totalTimeoutMs`), `go` returns the failure whose error message
is `"Full timeout exceeded"` and settles exactly when the timer fires,
abandoning the in-flight attempt or delay rather than awaiting it —
regardless of how many configured retries remain. -/
theorem go_full_timeout (beh : ℕ → OpBehavior) (opts : GoAsyncOptions) (rnd : ℕ → ℕ)
    (tt : ℕ) (htt : opts.totalTimeoutMs = some tt)
    (hlate : ∀ tm, (makeAttemptsRun beh opts rnd).time = some tm → effTimer tt ≤ tm) :
    (goRun beh (some opts) rnd).result =
      some (.failure (.error "Full timeout exceeded")) ∧
    (goRun beh (some opts) rnd).endTime = some (effTimer tt) := by
  simp only [goRun, htt]
  cases htm : (makeAttemptsRun beh opts rnd).time with
  | none => exact ⟨rfl, rfl⟩
  | some tm =>
    dsimp only
    rw [if_neg (by have := hlate tm htm; omega)]
    exact ⟨rfl, rfl⟩

/-- Witness for C2: an operation resolving after 50 ms with
`retries = 5` and `totalTimeoutMs = 20` yields the full-timeout failure
at 20 ms. -/
theorem go_full_timeout_witness :
    (goRun (fun _ => .resolves 50 (.nonError "x"))
        (some ⟨some 5, none, some 20, none, false⟩) (fun _ => 0)).result =
      some (.failure (.error "Full timeout exceeded")) ∧
    (goRun (fun _ => .resolves 50 (.nonError "x"))
        (some ⟨some 5, none, some 20, none, false⟩) (fun _ => 0)).endTime = some 20 := by
  have h := go_full_timeout (fun _ => .resolves 50 (.nonError "x"))
    ⟨some 5, none, some 20, none, false⟩ (fun _ => 0) 20 rfl
    (by
      intro tm htm
      have h50 : (makeAttemptsRun (fun _ => .resolves 50 (.nonError "x"))
          ⟨some 5, none, some 20, none, false⟩ (fun _ => 0)).time = some 50 := rfl
      rw [h50] at htm
      cases htm
      decide)
  exact ⟨h.1, h.2⟩

/-- C4: for every configuration (including `totalTimeoutMs = 0`) and every
operation, `go` invokes the operation at least once: the first attempt is
started synchronously, before any timer — including the total-timeout
timer — can fire, so the deadline can only suppress subsequent attempts
and delays. -/
theorem go_first_attempt_never_preempted (beh : ℕ → OpBehavior)
    (options : Option GoAsyncOptions) (rnd : ℕ → ℕ) :
    1 ≤ (goRun beh options rnd).invocations := by
  cases options with
  | none =>
    cases h : attemptRun (beh 0) none with
    | none => simp [goRun, h]
    | some p => simp [goRun, h]
  | some opts =>
    have hinv : 1 ≤ (makeAttemptsRun beh opts rnd).invocations := by
      unfold makeAttemptsRun
      obtain ⟨k, hk⟩ : ∃ k, numAttempts opts.retries = k + 1 :=
        ⟨numAttempts opts.retries - 1, by have := numAttempts_pos opts.retries; omega⟩
      rw [hk]
      exact loop_invocations_pos beh opts rnd _ _ k 0 0 none (flagSet_map_effTimer_zero _)
    obtain ⟨-, -, -, hi, -⟩ := goRun_fields beh opts rnd
    omega

/-- C3: when an observer callback is configured, the `onAttemptError`
invocations are exactly one per recorded failed attempt that is not the
final attempt and whose outcome was observed strictly before the
total-timeout flag was set — so the callback fires exactly once per failed
non-final attempt, never for the final attempt's failure, and never once
the total timeout has fired (a failure observed after the flag is set
triggers no callback).  The second conjunct shows each attempt index is
recorded exactly once, in order. -/
theorem go_callback_discipline (beh : ℕ → OpBehavior) (opts : GoAsyncOptions)
    (rnd : ℕ → ℕ) (hcb : opts.onAttemptError = true) :
    (goRun beh (some opts) rnd).callbacks =
      ((goRun beh (some opts) rnd).attemptsDone.filter
          (expectedCallback (numAttempts opts.retries) (opts.totalTimeoutMs.map effTimer))).map
        (fun ev => ⟨ev.idx, ev.result.errOf, ev.time⟩) ∧
    (goRun beh (some opts) rnd).attemptsDone.map AttemptEvent.idx =
      List.range (goRun beh (some opts) rnd).attemptsDone.length := by
  obtain ⟨ha, hc, -, -, -⟩ := goRun_fields beh opts rnd
  rw [ha, hc]
  constructor
  · exact loop_callbacks_spec beh opts rnd _ _ hcb _ _ _ _
  · rw [List.range_eq_range']
    exact loop_idx_range beh opts rnd _ _ _ _ _ _

/-- Witness for C3: `retries = 2`, `attemptTimeoutMs = 10`,
`totalTimeoutMs = 25`, an operation resolving after 20 ms: attempts time
out at 10 and 20 ms (both get a callback) and the third attempt's outcome
at 30 ms is observed after the flag fired at 25 ms, so it gets none. -/
theorem go_callback_discipline_witness :
    (goRun (fun _ => .resolves 20 (.nonError "x"))
        (some ⟨some 2, some (.single 10), some 25, none, true⟩) (fun _ => 0)).callbacks =
      ((goRun (fun _ => .resolves 20 (.nonError "x"))
          (some ⟨some 2, some (.single 10), some 25, none, true⟩)
          (fun _ => 0)).attemptsDone.filter (expectedCallback 3 (some 25))).map
        (fun ev => ⟨ev.idx, ev.result.errOf, ev.time⟩) ∧
    (goRun (fun _ => .resolves 20 (.nonError "x"))
        (some ⟨some 2, some (.single 10), some 25, none, true⟩)
        (fun _ => 0)).attemptsDone.map AttemptEvent.idx =
      List.range
        (goRun (fun _ => .resolves 20 (.nonError "x"))
            (some ⟨some 2, some (.single 10), some 25, none, true⟩)
            (fun _ => 0)).attemptsDone.length := by
  have h := go_callback_discipline (fun _ => .resolves 20 (.nonError "x"))
    ⟨some 2, some (.single 10), some 25, none, true⟩ (fun _ => 0) rfl
  exact ⟨h.1, h.2⟩

/-- C5 is refuted as universally stated: an operation that settles without
timer delay (synchronously or in a microtask) wins the `Promise.race`
against the 0 ms timeout timer, because an already-settled promise is
observed before any `setTimeout` callback runs; so this attempt with
`attemptTimeoutMs = 0` returns success, not the `"Operation timed out"`
failure. -/
theorem attempt_zero_timeout_counterexample :
    attemptRun (.resolves 0 (.nonError "42")) (some 0) =
      some (.success (.nonError "42"), 0) ∧
    ∀ e : JsValue,
      attemptRun (.resolves 0 (.nonError "42")) (some 0) ≠ some (.failure e, 0) := by
  refine ⟨rfl, ?_⟩
  intro e h
  simp [attemptRun, effTimer] at h

/-- C5 amended: a per-attempt timeout of 0 is an immediately-expiring
deadline for every operation that does not settle without timer delay
(settle time at least 1 ms) — distinct from omitting the field, which
means no timeout at all; and in general any attempt whose operation has
not settled strictly before the timeout timer fires (at
`effTimer attemptTimeoutMs`) fails with the error whose message is
`"Operation timed out"`. -/
theorem attempt_timeout_fires (b : OpBehavior) (ms : ℕ)
    (hlate : ∀ d, b.settleTime = some d → effTimer ms ≤ d) :
    attemptRun b (some ms) =
      some (createGoError (.nonError "Operation timed out"), effTimer ms) ∧
    errMessage (normalizeErr (.nonError "Operation timed out")) = "Operation timed out" ∧
    (∀ (d : ℕ) (v : JsValue), 1 ≤ d →
      attemptRun (.resolves d v) (some 0) =
        some (createGoError (.nonError "Operation timed out"), effTimer 0) ∧
      attemptRun (.resolves d v) none = some (.success v, d)) := by
  have heff0 : effTimer 0 = 1 := rfl
  refine ⟨?_, rfl, ?_⟩
  · cases b with
    | resolves d v =>
      have := hlate d rfl
      simp only [attemptRun]
      rw [if_neg (by omega)]
    | rejects d v =>
      have := hlate d rfl
      simp only [attemptRun]
      rw [if_neg (by omega)]
    | hangs => rfl
  · intro d v hd
    refine ⟨?_, rfl⟩
    simp only [attemptRun]
    rw [if_neg (by rw [heff0]; omega)]

/-- Witness for C5 (amended): an operation resolving after 50 ms with a
5 ms attempt timeout fails with the timed-out error at 5 ms. -/
theorem attempt_timeout_fires_witness :
    attemptRun (.resolves 50 (.nonError "x")) (some 5) =
      some (createGoError (.nonError "Operation timed out"), 5) := by
  have h := attempt_timeout_fires (.resolves 50 (.nonError "x")) 5
    (by
      intro d hd
      simp only [OpBehavior.settleTime, Option.some.injEq] at hd
      rw [← hd]
      decide)
  exact h.1

/-- C6: with any delay configured (static or random), no delay follows
the final attempt — for `retries = 2` and an always-failing operation
exactly two delays are performed, one after attempt 0 and one after
attempt 1, each of the duration the configured specification yields
(`delayDuration` covers both the static and the random branch of
lines 185-200); and with no delay specification no delay is ever
performed, for any configuration and operation. -/
theorem go_delay_discipline :
    (∀ (ds : DelaySpec) (dd : ℕ → ℕ) (vv : ℕ → JsValue) (cb : Bool) (rnd : ℕ → ℕ),
      (goRun (fun i => .rejects (dd i) (vv i))
          (some ⟨some 2, none, none, some ds, cb⟩) rnd).delays.map
        (fun ev => (ev.idx, ev.duration)) =
        [(0, delayDuration ds rnd 0), (1, delayDuration ds rnd 1)]) ∧
    (∀ (beh : ℕ → OpBehavior) (options : Option GoAsyncOptions) (rnd : ℕ → ℕ),
      (∀ opts, options = some opts → opts.delay = none) →
      (goRun beh options rnd).delays = []) := by
  constructor
  · intro ds dd vv cb rnd
    cases ds <;> rfl
  · intro beh options rnd hnd
    cases options with
    | none =>
      cases h : attemptRun (beh 0) none with
      | none => simp [goRun, h]
      | some p => simp [goRun, h]
    | some opts =>
      obtain ⟨-, -, hd, -, -⟩ := goRun_fields beh opts rnd
      rw [hd]
      exact loop_delays_nil beh opts rnd _ _ (hnd opts rfl) _ _ _ _

/-- Witness for C6: `retries = 2`, always failing: with a static 50 ms
delay, delays after attempts 0 and 1 of 50 ms each; with a random delay
drawn as 30 ms both times, delays after attempts 0 and 1 of 30 ms each;
and with no delay specification the delay trace is empty. -/
theorem go_delay_discipline_witness :
    (goRun (fun _ => .rejects 0 (.error "e"))
        (some ⟨some 2, none, none, some (.static 50), false⟩) (fun _ => 0)).delays.map
      (fun ev => (ev.idx, ev.duration)) = [(0, 50), (1, 50)] ∧
    (goRun (fun _ => .rejects 0 (.error "e"))
        (some ⟨some 2, none, none, some (.random 10 60), false⟩) (fun _ => 30)).delays.map
      (fun ev => (ev.idx, ev.duration)) = [(0, 30), (1, 30)] ∧
    (goRun (fun _ => .rejects 0 (.error "e"))
        (some ⟨some 2, none, none, none, false⟩) (fun _ => 0)).delays = [] := by
  refine ⟨go_delay_discipline.1 (.static 50) (fun _ => 0) (fun _ => .error "e") false
    (fun _ => 0), ?_, ?_⟩
  · exact go_delay_discipline.1 (.random 10 60) (fun _ => 0) (fun _ => .error "e") false
      (fun _ => 30)
  · exact go_delay_discipline.2 (fun _ => .rejects 0 (.error "e"))
      (some ⟨some 2, none, none, none, false⟩) (fun _ => 0)
      (fun opts hopts => by cases hopts; rfl)

/-- C7: error normalization preserves information — a thrown/rejected
value that is already an `Error` instance is carried in the failure
unchanged, while any other value is carried inside a new `GoWrappedError`
whose message is the value's string conversion and whose `reason` field is
the original value unchanged; `goSync` and each attempt inside `go` route
rejections through this same `createGoError` normalization. -/
theorem error_normalization_preserves (v : JsValue) :
    (isErrorInstance v = true → (createGoError v : GoResult JsValue) = .failure v) ∧
    (isErrorInstance v = false →
      (createGoError v : GoResult JsValue) = .failure (.wrappedError (jsToString v) v)) ∧
    goSync (.throws v) = createGoError v ∧
    (∀ d : ℕ, attemptRun (.rejects d v) none = some (createGoError v, d)) ∧
    (∀ d ms : ℕ, d < effTimer ms →
      attemptRun (.rejects d v) (some ms) = some (createGoError v, d)) := by
  refine ⟨?_, ?_, rfl, fun d => rfl, ?_⟩
  · intro h
    simp [createGoError, normalizeErr, h]
  · intro h
    simp [createGoError, normalizeErr, h]
  · intro d ms h
    simp only [attemptRun]
    rw [if_pos h]

/-- Witness for C7: a thrown non-`Error` value `"boom"` is wrapped with
its string conversion as message and itself as the `reason`; a thrown
`Error` is kept as is; a rejecting attempt carries the normalized error. -/
theorem error_normalization_preserves_witness :
    (createGoError (.nonError "boom") : GoResult JsValue) =
      .failure (.wrappedError "boom" (.nonError "boom")) ∧
    (createGoError (.error "bad") : GoResult JsValue) = .failure (.error "bad") ∧
    attemptRun (.rejects 3 (.nonError "boom")) (some 10) =
      some (createGoError (.nonError "boom"), 3) := by
  refine ⟨?_, ?_, ?_⟩
  · exact (error_normalization_preserves (.nonError "boom")).2.1 rfl
  · exact (error_normalization_preserves (.error "bad")).1 rfl
  · exact (error_normalization_preserves (.nonError "boom")).2.2.2.2 3 10 (by decide)

/-- C8: `goSync` and `go` never raise across their own boundary — every
outcome is a returned `GoResult` whose failure branch always carries a
conforming `Error` instance (arbitrary thrown values having been
normalized), `go` always settles when a total timeout is configured, and
it also settles for every operation none of whose invocations hang. -/
theorem go_never_raises :
    (∀ sb : SyncBehavior, conformingB (goSync sb) = true) ∧
    (∀ (beh : ℕ → OpBehavior) (options : Option GoAsyncOptions) (rnd : ℕ → ℕ)
        (r : GoResult JsValue),
      (goRun beh options rnd).result = some r → conformingB r = true) ∧
    (∀ (beh : ℕ → OpBehavior) (opts : GoAsyncOptions) (rnd : ℕ → ℕ) (tt : ℕ),
      opts.totalTimeoutMs = some tt → ((goRun beh (some opts) rnd).result).isSome = true) ∧
    (∀ (beh : ℕ → OpBehavior) (options : Option GoAsyncOptions) (rnd : ℕ → ℕ),
      (∀ j, beh j ≠ .hangs) → ((goRun beh options rnd).result).isSome = true) := by
  refine ⟨?_, ?_, ?_, ?_⟩
  · intro sb
    cases sb with
    | returns v => rfl
    | throws v => exact createGoError_conforming v
  · intro beh options rnd r hr
    cases options with
    | none =>
      cases h : attemptRun (beh 0) none with
      | none => simp [goRun, h] at hr
      | some p =>
        obtain ⟨r2, d⟩ := p
        simp only [goRun, h, Option.some.injEq] at hr
        rw [← hr]
        exact attemptRun_conforming _ _ _ _ h
    | some opts =>
      obtain ⟨-, -, -, -, hres⟩ := goRun_fields beh opts rnd
      rcases hres with h | h
      · rw [h] at hr
        exact loop_result_conforming beh opts rnd _ _ _ _ _ _
          (fun e he => Option.noConfusion he) r hr
      · rw [h] at hr
        simp only [Option.some.injEq] at hr
        rw [← hr]
        rfl
  · intro beh opts rnd tt htt
    exact goRun_isSome_of_total beh opts rnd tt htt
  · intro beh options rnd hh
    cases options with
    | none =>
      cases hb : beh 0 with
      | hangs => exact absurd hb (hh 0)
      | resolves d v => simp [goRun, hb, attemptRun]
      | rejects d v => simp [goRun, hb, attemptRun]
    | some opts =>
      cases htt : opts.totalTimeoutMs with
      | some tt => exact goRun_isSome_of_total beh opts rnd tt htt
      | none =>
        obtain ⟨-, -, -, -, hres⟩ := goRun_fields beh opts rnd
        rcases hres with h | h
        · rw [h]
          unfold makeAttemptsRun
          rw [show opts.totalTimeoutMs.map effTimer = none from by rw [htt]; rfl]
          exact loop_result_isSome_of_no_hang beh opts rnd _ hh _ _ _ _
            (Or.inl (numAttempts_pos _))
        · rw [h]; rfl

/-- Witness for C8: a synchronous throw of the non-`Error` string
`"oops"` comes back as a conforming failure result, and a hanging
operation under a total timeout still yields a settled result. -/
theorem go_never_raises_witness :
    conformingB (goSync (.throws (.nonError "oops"))) = true ∧
    ((goRun (fun _ => .hangs) (some ⟨some 3, none, some 10, none, false⟩)
        (fun _ => 0)).result).isSome = true := by
  refine ⟨go_never_raises.1 (.throws (.nonError "oops")), ?_⟩
  exact go_never_raises.2.2.1 (fun _ => .hangs) ⟨some 3, none, some 10, none, false⟩
    (fun _ => 0) 10 rfl

/-- C9: `assertGoSuccess` on a failure throws exactly the original failure
value unchanged and throws nothing on a success; `assertGoError` on a
success throws a new generic error with the fixed message
`"Assertion failed. Expected error, but no error was thrown"` and throws
nothing on a failure. -/
theorem assertion_adapters :
    (∀ e : JsValue, assertGoSuccess (.failure e : GoResult JsValue) = some e) ∧
    (∀ v : JsValue, assertGoSuccess (.success v : GoResult JsValue) = none) ∧
    (∀ v : JsValue, assertGoError (.success v : GoResult JsValue) =
      some (.error "Assertion failed. Expected error, but no error was thrown")) ∧
    (∀ e : JsValue, assertGoError (.failure e : GoResult JsValue) = none) :=
  ⟨fun _ => rfl, fun _ => rfl, fun _ => rfl, fun _ => rfl⟩

/-- C10: with an array for `attemptTimeoutMs`, attempt `i` uses the
element at index `i` when that element is a nonzero number, and the
array's last element otherwise — both for indices past the end of the
array and for an element equal to `0`, which is falsy and therefore
replaced by `a.at(-1)` rather than used as a zero timeout. -/
theorem attempt_timeout_array (l : List ℕ) (i : ℕ) :
    (∀ n : ℕ, l.get? i = some n → n ≠ 0 →
      currentAttemptTimeout (some (.arr l)) i = some n) ∧
    (l.length ≤ i → currentAttemptTimeout (some (.arr l)) i = l.getLast?) ∧
    (l.get? i = some 0 → currentAttemptTimeout (some (.arr l)) i = l.getLast?) := by
  refine ⟨?_, ?_, ?_⟩
  · intro n hget hne
    simp only [currentAttemptTimeout]
    rw [hget]
    simp [jsOrNum, hne]
  · intro hlen
    have hnone : l.get? i = none := List.get?_eq_none.mpr hlen
    simp only [currentAttemptTimeout]
    rw [hnone]
    simp [jsOrNum]
  · intro hget
    simp only [currentAttemptTimeout]
    rw [hget]
    simp [jsOrNum]

/-- Witness for C10 on the array `[5, 0, 7]`: index 0 uses 5 (nonzero
element), index 1 uses the last element 7 (element is 0), index 9 uses the
last element 7 (out of bounds). -/
theorem attempt_timeout_array_witness :
    currentAttemptTimeout (some (.arr [5, 0, 7])) 0 = some 5 ∧
    currentAttemptTimeout (some (.arr [5, 0, 7])) 1 = some 7 ∧
    currentAttemptTimeout (some (.arr [5, 0, 7])) 9 = some 7 := by
  refine ⟨?_, ?_, ?_⟩
  · exact (attempt_timeout_array [5, 0, 7] 0).1 5 rfl (by decide)
  · have h := (attempt_timeout_array [5, 0, 7] 1).2.2 rfl
    simpa using h
  · have h := (attempt_timeout_array [5, 0, 7] 9).2.1 (by decide)
    simpa using h

end PromiseUtils
